import Mathlib

/-!
Shallow embedding of the coffee-companion backend: credential store,
registration workflow, device-bound token authentication and the coffee
record store, translated from `src/unnamed/part_000` (register endpoint),
`src/routes/auth.js` (validate endpoint) and `src/server.js` (middleware
and API endpoints).  Persistent tables become lists of rows; each HTTP
handler becomes a function from a store state and request data to a new
state plus a response.  Randomness (`crypto.randomBytes`), the clock
(`Date.now()`), the request's device metadata and the outcome of the
outbound mail send are passed in as explicit parameters.
-/

/-- A row of the `whitelist` table (columns used by the workflow). -/
structure WhitelistEntry where
  id : Nat
  email : String
  name : String
  website : String
  note : String
deriving DecidableEq

/-- A row of the `registrations` table (pending registrations).  The
`created_at` column is never read by any handler in scope and is omitted. -/
structure Registration where
  email : String
  token : String
  used : Bool
deriving DecidableEq

/-- A row of the `users` table (accounts).  Numeric water hardness is
modelled as a rational (the handlers only ever compare it with 0 and with
the bounds 0 and 50). -/
structure Account where
  id : Nat
  username : String
  token : String
  device_id : Option String
  device_info : Option String
  grinder_preference : Option String
  method_preference : Option String
  water_hardness : Option Rat
  created_at : Nat
  last_login_at : Nat
deriving DecidableEq

/-- A row of the `coffees` table: an opaque JSON string owned by an account. -/
structure CoffeeRow where
  id : Nat
  account_id : Nat
  data : String
  created_at : Nat
deriving DecidableEq

/-- The persistent store: the four tables. -/
structure St where
  whitelist : List WhitelistEntry
  registrations : List Registration
  users : List Account
  coffees : List CoffeeRow
deriving DecidableEq

/-- JS truthiness of a nullable string column: `null` and `""` are falsy. -/
def truthyStr : Option String → Bool
  | none => false
  | some s => !s.isEmpty

/-- JS `x || d` for a nullable string `x`: falls back on `null` and `""`. -/
def orDefault : Option String → String → String
  | none, d => d
  | some s, d => if s.isEmpty then d else s

/-- JS `String.prototype.toLowerCase` on the app's ASCII emails. -/
def jsToLower (s : String) : String := String.mk (s.toList.map Char.toLower)

/-- JS `String.prototype.trim`: strip leading and trailing whitespace. -/
def jsTrim (s : String) : String :=
  String.mk (((s.toList.dropWhile Char.isWhitespace).reverse.dropWhile Char.isWhitespace).reverse)

/-- JS `email.includes('@')` (single-character search). -/
def hasAtSign (s : String) : Bool := s.toList.contains '@'

/-- `email.toLowerCase().trim()` of the register endpoint. -/
def normalizeEmail (email : String) : String := jsTrim (jsToLower email)

/-- JS `email.split('@')[0]`: the prefix before the first '@' (the whole
string when '@' is absent). -/
def localPart (s : String) : String := String.mk (s.toList.takeWhile (fun c => !(c == '@')))

/-- Modelled from the spec: `queries.getUserByToken` of the missing
`src/db/database.js`, a parameterized lookup of the accounts table by its
unique token column. -/
def getUserByToken (st : St) (token : String) : Option Account :=
  st.users.find? (fun u => u.token == token)

/-- `SELECT * FROM registrations WHERE token = ?` (src/routes/auth.js). -/
def findRegistrationByToken (st : St) (token : String) : Option Registration :=
  st.registrations.find? (fun r => r.token == token)

/-- Largest account id in use; 0 when the table is empty. -/
def maxUserId (st : St) : Nat :=
  st.users.foldr (fun u m => max u.id m) 0

/-- Modelled from the spec: `queries.createUser` of the missing
`src/db/database.js` — inserts a new account row bound to the given token
and device (the call site passes username, token, deviceId, deviceInfo),
with a fresh id and null preference columns. -/
def createUser (st : St) (username token deviceId devInfo : String) (now : Nat) : St :=
  { st with users := st.users ++
      [{ id := maxUserId st + 1, username := username, token := token,
         device_id := some deviceId, device_info := some devInfo,
         grinder_preference := none, method_preference := none,
         water_hardness := none, created_at := now, last_login_at := now }] }

/-- `UPDATE registrations SET used = 1 WHERE token = ?` (src/routes/auth.js). -/
def setRegistrationUsed (st : St) (token : String) : St :=
  { st with registrations :=
      st.registrations.map (fun r => if r.token == token then { r with used := true } else r) }

/-- Single-row account update keyed by id. -/
def updateUserById (st : St) (i : Nat) (f : Account → Account) : St :=
  { st with users := st.users.map (fun u => if u.id == i then f u else u) }

/-- Modelled from the spec: `queries.bindDevice` of the missing
`src/db/database.js` — persists deviceId plus derived device metadata on
the account; per the spec this is the only write path for deviceId. -/
def bindDevice (st : St) (i : Nat) (deviceId devInfo : String) : St :=
  updateUserById st i (fun u => { u with device_id := some deviceId, device_info := some devInfo })

/-- Modelled from the spec: `queries.updateLastLogin` of the missing
`src/db/database.js`. -/
def updateLastLogin (st : St) (i : Nat) (now : Nat) : St :=
  updateUserById st i (fun u => { u with last_login_at := now })

/-- Modelled from the spec: `queries.updateGrinderPreference` of the missing
`src/db/database.js`. -/
def updateGrinderPreference (st : St) (i : Nat) (g : String) : St :=
  updateUserById st i (fun u => { u with grinder_preference := some g })

/-- Modelled from the spec: `queries.updateWaterHardness` of the missing
`src/db/database.js`. -/
def updateWaterHardness (st : St) (i : Nat) (w : Rat) : St :=
  updateUserById st i (fun u => { u with water_hardness := some w })

/-- Modelled from the spec: `queries.getGrinderPreference` of the missing
`src/db/database.js`. -/
def getGrinderPreference (st : St) (i : Nat) : Option String :=
  (st.users.find? (fun u => u.id == i)).bind (fun u => u.grinder_preference)

/-- Modelled from the spec: `queries.getWaterHardness` of the missing
`src/db/database.js`. -/
def getWaterHardnessOf (st : St) (i : Nat) : Option Rat :=
  (st.users.find? (fun u => u.id == i)).bind (fun u => u.water_hardness)

/-- Modelled from the spec: `queries.getUserCoffees` of the missing
`src/db/database.js` — all coffee rows owned by the account. -/
def getUserCoffees (st : St) (i : Nat) : List CoffeeRow :=
  st.coffees.filter (fun c => c.account_id == i)

/-- Modelled from the spec: `queries.deleteUserCoffees` of the missing
`src/db/database.js`. -/
def deleteUserCoffees (st : St) (i : Nat) : St :=
  { st with coffees := st.coffees.filter (fun c => !(c.account_id == i)) }

/-- Largest coffee row id in use; 0 when the table is empty. -/
def maxCoffeeId (st : St) : Nat :=
  st.coffees.foldr (fun c m => max c.id m) 0

/-- Modelled from the spec: `queries.saveCoffee` of the missing
`src/db/database.js` — inserts one serialized record for the account. -/
def saveCoffee (st : St) (i : Nat) (data : String) (now : Nat) : St :=
  { st with coffees := st.coffees ++
      [{ id := maxCoffeeId st + 1, account_id := i, data := data, created_at := now }] }

/-! ## Registration endpoint (src/unnamed/part_000) -/

/-- The 32-character token alphabet of `generateToken` (src/unnamed/part_000
line 14): no `0`, `O`, `1` or `I`. -/
def tokenChars : List Char := "ABCDEFGHJKLMNPQRSTUVWXYZ23456789".toList

/-- `generateToken` (src/unnamed/part_000 lines 13-20), with the stream of
random bytes made explicit: character i of the suffix is
`chars[randomBytes(1)[0] % chars.length]`. -/
def generateToken (rand : Nat → Nat) : String :=
  "BREW-" ++ String.mk ((List.range 6).map (fun i => tokenChars.getD (rand i % tokenChars.length) 'A'))

/-- `SELECT id FROM registrations WHERE token = ?` used by the collision
check of the register endpoint. -/
def tokenConflict (st : St) (t : String) : Bool :=
  (st.registrations.find? (fun r => r.token == t)).isSome

/-- The token-generation do-while of the register endpoint
(src/unnamed/part_000 lines 190-200): generate, break on the first
non-conflicting token, retry up to ten times on conflict and then proceed
with the last generated token regardless.  `rand k` is the byte stream of
the k-th `generateToken` call; `fuel` counts the remaining retries. -/
def pickToken (st : St) (rand : Nat → Nat → Nat) (k fuel : Nat) : String :=
  let t := generateToken (rand k)
  if tokenConflict st t then
    match fuel with
    | 0 => t
    | fuel' + 1 => pickToken st rand (k + 1) fuel'
  else t

/-- Response of the register endpoint (status code plus JSON fields). -/
structure RegisterResponse where
  status : Nat
  success : Bool
  resent : Option Bool
  error : Option String
deriving DecidableEq

/-- State and response produced by one register call. -/
structure RegisterResult where
  st : St
  resp : RegisterResponse
deriving DecidableEq

/-- `POST /api/auth/register` (src/unnamed/part_000 lines 153-225).
`mailOk` is the outcome of the outbound `sendTokenMail` call
(false = the fetch to the mail provider fails and throws, reaching the
catch block after any insert already performed). -/
def register (st : St) (email : String) (mailOk : Bool) (rand : Nat → Nat → Nat) : RegisterResult :=
  if email.isEmpty || !(hasAtSign email) then
    ⟨st, ⟨400, false, none, some "Ungültige E-Mail"⟩⟩
  else
    let norm := normalizeEmail email
    match st.whitelist.find? (fun w => w.email == norm) with
    | none => ⟨st, ⟨403, false, none, some "not_whitelisted"⟩⟩
    | some _ =>
      match st.registrations.find? (fun r => r.email == norm) with
      | some _ =>
        if mailOk then ⟨st, ⟨200, true, some true, none⟩⟩
        else ⟨st, ⟨500, false, none, some "Server error"⟩⟩
      | none =>
        let token := pickToken st rand 0 9
        let st' : St := { st with registrations := st.registrations ++ [⟨norm, token, false⟩] }
        if mailOk then ⟨st', ⟨200, true, some false, none⟩⟩
        else ⟨st', ⟨500, false, none, some "Server error"⟩⟩

/-! ## Validate endpoint (src/routes/auth.js) -/

/-- JS word characters `[a-zA-Z0-9_]` kept by the username regex. -/
def isWordChar (c : Char) : Bool := c.isAlphanum || c == '_'

/-- JS `str.slice(-n)`: the last n characters (the whole string when shorter). -/
def sliceLast (s : String) (n : Nat) : String :=
  String.mk (s.toList.drop (s.length - n))

/-- Username derivation of the validate endpoint (src/routes/auth.js lines
53-56): local part of the email, stripped to word characters, capped at 16
characters, falling back to the literal "user" when empty, with an
underscore and the last four digits of `Date.now()` appended. -/
def deriveUsername (email : String) (now : Nat) : String :=
  let base := String.mk (((localPart email).toList.filter isWordChar).take 16)
  let suffix := sliceLast (toString now) 4
  (if base.isEmpty then "user" else base) ++ "_" ++ suffix

/-- The `user` object of the validate endpoint's success response
(src/routes/auth.js lines 88-100). -/
structure UserProfile where
  id : Nat
  username : String
  deviceId : String
  grinderPreference : String
  methodPreference : String
  waterHardness : Option Rat
  createdAt : Nat
deriving DecidableEq

/-- Response of the validate endpoint (status code plus JSON fields). -/
structure ValidateResponse where
  status : Nat
  success : Bool
  valid : Option Bool
  error : Option String
  user : Option UserProfile
deriving DecidableEq

/-- State and response produced by one validate call. -/
structure ValidateResult where
  st : St
  resp : ValidateResponse
deriving DecidableEq

/-- The success response of the validate endpoint (src/routes/auth.js lines
88-100), built from the possibly stale `user` row.  JS `||` falls back on
every falsy value: null or `""` for the string columns, null or 0 for the
numeric water hardness. -/
def profileOf (u : Account) (deviceId : String) : UserProfile :=
  { id := u.id
    username := u.username
    deviceId := orDefault u.device_id deviceId
    grinderPreference := orDefault u.grinder_preference "fellow_gen2"
    methodPreference := orDefault u.method_preference "v60"
    waterHardness := match u.water_hardness with
      | none => none
      | some w => if w = 0 then none else some w
    createdAt := u.created_at }

/-- Last-login update plus success response (src/routes/auth.js lines 86-100). -/
def finishValidate (st : St) (u : Account) (deviceId : String) (now : Nat) : ValidateResult :=
  ⟨updateLastLogin st u.id now, ⟨200, true, some true, none, some (profileOf u deviceId)⟩⟩

/-- Device-binding check and success path of the validate endpoint
(src/routes/auth.js lines 72-100): an already-bound account must present
the same device id, an unbound account is bound to the presented device. -/
def deviceBindingStep (st : St) (u : Account) (deviceId devInfo : String) (now : Nat) : ValidateResult :=
  if truthyStr u.device_id then
    if u.device_id == some deviceId then
      finishValidate st u deviceId now
    else
      ⟨st, ⟨403, false, some false, some "This token is already bound to another device", none⟩⟩
  else
    finishValidate (bindDevice st u.id deviceId devInfo) u deviceId now

/-- `GET /validate` (src/routes/auth.js lines 16-109): credential guards,
account lookup by token, lazy promotion of a pending registration into an
account, device binding, last-login update and profile response.  The 500
branch after promotion mirrors the catch block that would fire if the
freshly created account could not be read back. -/
def validate (st : St) (token deviceId devInfo : String) (now : Nat) : ValidateResult :=
  if token.isEmpty then ⟨st, ⟨400, false, none, some "Token required", none⟩⟩
  else if deviceId.isEmpty then ⟨st, ⟨400, false, none, some "Device ID required", none⟩⟩
  else
    match getUserByToken st token with
    | some u => deviceBindingStep st u deviceId devInfo now
    | none =>
      match findRegistrationByToken st token with
      | none => ⟨st, ⟨401, false, some false, some "Invalid token", none⟩⟩
      | some reg =>
        let st1 := createUser st (deriveUsername reg.email now) token deviceId devInfo now
        let st2 := setRegistrationUsed st1 token
        match getUserByToken st2 token with
        | none => ⟨st2, ⟨500, false, none, some "Server error", none⟩⟩
        | some u => deviceBindingStep st2 u deviceId devInfo now

/-! ## Middleware and API endpoints (src/server.js) -/

/-- Outcome of the `authenticateUser` middleware (src/server.js lines
133-185): an error response, or the (stale) `user` row fetched before any
binding write together with the possibly updated store. -/
inductive AuthOutcome where
  | fail (status : Nat) (error : String)
  | ok (user : Account) (st : St)
deriving DecidableEq

/-- `authenticateUser` middleware (src/server.js lines 133-185): credential
guards, account lookup, device-binding check with first-time binding. -/
def authenticateUser (st : St) (token deviceId devInfo : String) : AuthOutcome :=
  if token.isEmpty then .fail 400 "Token required"
  else if deviceId.isEmpty then .fail 400 "Device ID required"
  else
    match getUserByToken st token with
    | none => .fail 401 "Invalid token"
    | some u =>
      if truthyStr u.device_id then
        if u.device_id == some deviceId then .ok u st
        else .fail 403 "Device mismatch"
      else .ok u (bindDevice st u.id deviceId devInfo)

/-- The `user` object of `GET /api/auth/validate` in src/server.js (lines
266-277); unlike the router version it has no method preference field and
defaults the grinder to "fellow". -/
structure ServerProfile where
  id : Nat
  username : String
  deviceId : String
  grinderPreference : String
  waterHardness : Option Rat
  createdAt : Nat
deriving DecidableEq

/-- Result of `GET /api/auth/validate` in src/server.js. -/
structure ServerValidateResult where
  st : St
  status : Nat
  success : Bool
  valid : Option Bool
  error : Option String
  user : Option ServerProfile
deriving DecidableEq

/-- `GET /api/auth/validate` (src/server.js lines 223-286): like the router
version but with no promotion from registrations. -/
def serverValidate (st : St) (token deviceId devInfo : String) (now : Nat) : ServerValidateResult :=
  if token.isEmpty then ⟨st, 400, false, none, some "Token required", none⟩
  else if deviceId.isEmpty then ⟨st, 400, false, none, some "Device ID required", none⟩
  else
    match getUserByToken st token with
    | none => ⟨st, 401, false, some false, some "Invalid token", none⟩
    | some u =>
      if truthyStr u.device_id then
        if u.device_id == some deviceId then
          ⟨updateLastLogin st u.id now, 200, true, some true, none, some
            ⟨u.id, u.username, orDefault u.device_id deviceId,
             orDefault u.grinder_preference "fellow",
             (match u.water_hardness with
              | none => none
              | some w => if w = 0 then none else some w),
             u.created_at⟩⟩
        else ⟨st, 403, false, some false, some "This token is already bound to another device", none⟩
      else
        ⟨updateLastLogin (bindDevice st u.id deviceId devInfo) u.id now, 200, true, some true, none, some
          ⟨u.id, u.username, orDefault u.device_id deviceId,
           orDefault u.grinder_preference "fellow",
           (match u.water_hardness with
            | none => none
            | some w => if w = 0 then none else some w),
           u.created_at⟩⟩

/-- Result of the grinder endpoints (src/server.js lines 296-345). -/
structure GrinderResult where
  st : St
  status : Nat
  success : Bool
  grinder : Option String
  error : Option String
deriving DecidableEq

/-- `GET /api/user/grinder` (src/server.js lines 296-312). -/
def getGrinder (st : St) (token deviceId devInfo : String) : GrinderResult :=
  match authenticateUser st token deviceId devInfo with
  | .fail s e => ⟨st, s, false, none, some e⟩
  | .ok u st1 => ⟨st1, 200, true, getGrinderPreference st1 u.id, none⟩

/-- The grinder values accepted by `POST /api/user/grinder`. -/
def validGrinders : List String := ["fellow", "comandante", "timemore"]

/-- `POST /api/user/grinder` (src/server.js lines 318-345).  `g` is the
body's grinder field, `none` when absent or null. -/
def postGrinder (st : St) (token deviceId devInfo : String) (g : Option String) : GrinderResult :=
  match authenticateUser st token deviceId devInfo with
  | .fail s e => ⟨st, s, false, none, some e⟩
  | .ok u st1 =>
    match g with
    | none => ⟨st1, 400, false, none, some "Valid grinder required (fellow, comandante, or timemore)"⟩
    | some gr =>
      if gr.isEmpty || !(validGrinders.contains gr) then
        ⟨st1, 400, false, none, some "Valid grinder required (fellow, comandante, or timemore)"⟩
      else ⟨updateGrinderPreference st1 u.id gr, 200, true, some gr, none⟩

/-- Result of the water-hardness endpoints (src/server.js lines 355-413). -/
structure WaterResult where
  st : St
  status : Nat
  success : Bool
  waterHardness : Option Rat
  error : Option String
deriving DecidableEq

/-- `GET /api/user/water-hardness` (src/server.js lines 355-371). -/
def getWaterHardness (st : St) (token deviceId devInfo : String) : WaterResult :=
  match authenticateUser st token deviceId devInfo with
  | .fail s e => ⟨st, s, false, none, some e⟩
  | .ok u st1 => ⟨st1, 200, true, getWaterHardnessOf st1 u.id, none⟩

/-- `POST /api/user/water-hardness` (src/server.js lines 377-413): requires
a present value, accepts every finite number in [0, 50] — 0 included — and
stores it on the authenticated user.  The body value is modelled as an
already-parsed finite number (`none` = absent or null). -/
def postWaterHardness (st : St) (token deviceId devInfo : String) (w : Option Rat) : WaterResult :=
  match authenticateUser st token deviceId devInfo with
  | .fail s e => ⟨st, s, false, none, some e⟩
  | .ok u st1 =>
    match w with
    | none => ⟨st1, 400, false, none, some "Water hardness value required"⟩
    | some v =>
      if v < 0 ∨ 50 < v then
        ⟨st1, 400, false, none, some "Valid water hardness required (0-50 °dH)"⟩
      else ⟨updateWaterHardness st1 u.id v, 200, true, some v, none⟩

/-- Result of `GET /api/coffees` (src/server.js lines 419-443). -/
structure ListCoffeesResult where
  st : St
  status : Nat
  success : Bool
  coffees : Option (List CoffeeRow)
deriving DecidableEq

/-- `GET /api/coffees` (src/server.js lines 419-443). -/
def getCoffees (st : St) (token deviceId devInfo : String) (now : Nat) : ListCoffeesResult :=
  match authenticateUser st token deviceId devInfo with
  | .fail s _ => ⟨st, s, false, none⟩
  | .ok u st1 =>
    let st2 := updateLastLogin st1 u.id now
    ⟨st2, 200, true, some (getUserCoffees st2 u.id)⟩

/-- Result of `POST /api/coffees` (src/server.js lines 445-482). -/
structure CoffeesResult where
  st : St
  status : Nat
  success : Bool
  saved : Option Nat
  error : Option String
deriving DecidableEq

/-- The insert loop of `POST /api/coffees`: one `saveCoffee` per record. -/
def insertCoffees (st : St) (i : Nat) (cs : List String) (now : Nat) : St :=
  cs.foldl (fun s c => saveCoffee s i c now) st

/-- `POST /api/coffees` (src/server.js lines 445-482): transactional delete
of all of the user's rows plus one insert per supplied record, committed
together.  `coffees = none` models an absent body field; `failAt = some k`
with k below the record count simulates a storage failure at the k-th
insert, after which the transaction is rolled back and the catch block
returns a 500 — the store reverts to its pre-transaction state (any
device binding done by the middleware happened before the transaction).
The saved count is JS `coffees?.length || 0`. -/
def postCoffees (st : St) (token deviceId devInfo : String)
    (coffees : Option (List String)) (failAt : Option Nat) (now : Nat) : CoffeesResult :=
  match authenticateUser st token deviceId devInfo with
  | .fail s e => ⟨st, s, false, none, some e⟩
  | .ok u st1 =>
    let cs := coffees.getD []
    let failing := match failAt with
      | none => false
      | some k => decide (k < cs.length)
    if failing then ⟨st1, 500, false, none, some "Server error"⟩
    else
      let st2 := deleteUserCoffees st1 u.id
      let st3 := if cs.length > 0 then insertCoffees st2 u.id cs now else st2
      ⟨st3, 200, true, some cs.length, none⟩

/-- One inbound operation of the system, for stating store invariants. -/
inductive Op where
  | register (email : String) (mailOk : Bool) (rand : Nat → Nat → Nat)
  | validate (token deviceId devInfo : String) (now : Nat)
  | serverValidate (token deviceId devInfo : String) (now : Nat)
  | getGrinder (token deviceId devInfo : String)
  | postGrinder (token deviceId devInfo : String) (g : Option String)
  | getWaterHardness (token deviceId devInfo : String)
  | postWaterHardness (token deviceId devInfo : String) (w : Option Rat)
  | getCoffees (token deviceId devInfo : String) (now : Nat)
  | postCoffees (token deviceId devInfo : String) (coffees : Option (List String))
      (failAt : Option Nat) (now : Nat)

/-- The store state an operation leaves behind. -/
def applyOp (st : St) : Op → St
  | .register e m r => (register st e m r).st
  | .validate t d i n => (validate st t d i n).st
  | .serverValidate t d i n => (serverValidate st t d i n).st
  | .getGrinder t d i => (getGrinder st t d i).st
  | .postGrinder t d i g => (postGrinder st t d i g).st
  | .getWaterHardness t d i => (getWaterHardness st t d i).st
  | .postWaterHardness t d i w => (postWaterHardness st t d i w).st
  | .getCoffees t d i n => (getCoffees st t d i n).st
  | .postCoffees t d i c f n => (postCoffees st t d i c f n).st

/-- Store well-formedness maintained by every operation: account ids are
pairwise distinct and a stored device id is never the empty string (the
endpoint guards reject an empty device id before any write). -/
def Wf (st : St) : Prop :=
  st.users.Pairwise (fun a b => a.id ≠ b.id) ∧ ∀ a ∈ st.users, a.device_id ≠ some ""

/-- "Every account with id `i` has device id `d`" — the shape of the
device-immutability invariant at one account. -/
def DevAt (us : List Account) (i : Nat) (d : String) : Prop :=
  ∀ a ∈ us, a.id = i → a.device_id = some d

/-- Agreement of two registration rows up to the `used` flag. -/
def RegSameId (r₁ r₂ : Registration) : Prop :=
  r₁.email = r₂.email ∧ r₁.token = r₂.token

/-- Two stores that differ at most in the `used` flags of their
registration rows. -/
def EqModUsed (s₁ s₂ : St) : Prop :=
  s₁.whitelist = s₂.whitelist ∧ s₁.users = s₂.users ∧ s₁.coffees = s₂.coffees ∧
  List.Forall₂ RegSameId s₁.registrations s₂.registrations

/-- The empty store. -/
def emptySt : St := ⟨[], [], [], []⟩

/-- A constant random-byte stream, for concrete evaluations. -/
def flatRand : Nat → Nat → Nat := fun _ _ => 0

/-- A concrete whitelist entry. -/
def wlUser : WhitelistEntry := ⟨1, "user@example.com", "", "", ""⟩

/-- A concrete pending registration for `wlUser`'s email. -/
def regUser : Registration := ⟨"user@example.com", "BREW-ABC234", false⟩

/-- A concrete account bound to device "abc123". -/
def acctBound : Account :=
  ⟨1, "user_1234", "BREW-ABC234", some "abc123", some "{}", none, none, none, 10, 10⟩

/-- Store with one whitelisted email and nothing else. -/
def stWl : St := ⟨[wlUser], [], [], []⟩

/-- Store with a token issued (pending registration) but no account yet. -/
def stPending : St := ⟨[wlUser], [regUser], [], []⟩

/-- Store with a promoted, device-bound account. -/
def stBound : St := ⟨[wlUser], [⟨"user@example.com", "BREW-ABC234", true⟩], [acctBound], []⟩

/-! ## Generic list helpers -/

theorem id_le_foldr_max (l : List Account) (a : Account) (ha : a ∈ l) :
    a.id ≤ l.foldr (fun u m => max u.id m) 0 := by
  induction l with
  | nil => cases ha
  | cons b l ih =>
    rcases List.mem_cons.mp ha with h | h
    · subst h; exact le_max_left _ _
    · exact le_trans (ih h) (le_max_right _ _)

theorem mem_le_maxUserId (st : St) (a : Account) (ha : a ∈ st.users) :
    a.id ≤ maxUserId st :=
  id_le_foldr_max st.users a ha

theorem find?_append_of_none {α : Type} (p : α → Bool) (l₁ l₂ : List α)
    (h : l₁.find? p = none) : (l₁ ++ l₂).find? p = l₂.find? p := by
  induction l₁ with
  | nil => rfl
  | cons a l ih =>
    cases hpa : p a with
    | true =>
      rw [List.find?_cons_of_pos _ hpa] at h
      cases h
    | false =>
      rw [List.find?_cons_of_neg _ (by simp [hpa])] at h
      rw [List.cons_append, List.find?_cons_of_neg _ (by simp [hpa])]
      exact ih h

theorem find?_append_of_some {α : Type} (p : α → Bool) (l₁ l₂ : List α) (a : α)
    (h : l₁.find? p = some a) : (l₁ ++ l₂).find? p = some a := by
  induction l₁ with
  | nil => cases h
  | cons b l ih =>
    cases hpb : p b with
    | true =>
      rw [List.find?_cons_of_pos _ hpb] at h
      rw [List.cons_append, List.find?_cons_of_pos _ hpb]
      exact h
    | false =>
      rw [List.find?_cons_of_neg _ (by simp [hpb])] at h
      rw [List.cons_append, List.find?_cons_of_neg _ (by simp [hpb])]
      exact ih h

theorem find?_map_comm {α : Type} (p : α → Bool) (f : α → α) (l : List α)
    (hf : ∀ x, p (f x) = p x) :
    (l.map f).find? p = (l.find? p).map f := by
  induction l with
  | nil => rfl
  | cons a l ih =>
    simp only [List.map_cons, List.find?, hf a]
    cases p a <;> simp [ih]

/-! ## Device-immutability helper lemmas -/

theorem devAt_of_wf (st : St) (a : Account) (d : String)
    (hwf : Wf st) (ha : a ∈ st.users) (hd : a.device_id = some d) :
    DevAt st.users a.id d := by
  intro b hb hidb
  by_cases hba : b = a
  · subst hba; exact hd
  · have hsym : Symmetric (fun x y : Account => x.id ≠ y.id) :=
      fun x y h => fun e => h e.symm
    exact absurd hidb (List.Pairwise.forall hsym hwf.1 hb ha hba)

theorem devAt_map (us : List Account) (i : Nat) (d : String) (j : Nat)
    (f : Account → Account)
    (hf : ∀ u, (f u).device_id = u.device_id ∧ (f u).id = u.id)
    (h : DevAt us i d) :
    DevAt (us.map (fun u => if u.id == j then f u else u)) i d := by
  intro a' ha' hid
  rcases List.mem_map.mp ha' with ⟨b, hb, hba⟩
  by_cases hbj : (b.id == j) = true
  · rw [if_pos hbj] at hba
    subst hba
    rw [(hf b).1]
    exact h b hb (((hf b).2).symm.trans hid)
  · rw [if_neg hbj] at hba
    subst hba
    exact h b hb hid

theorem devAt_bind (us : List Account) (i j : Nat) (d dev info : String)
    (hd : d ≠ "") (h : DevAt us i d)
    (u : Account) (hu : u ∈ us) (huj : u.id = j)
    (hut : truthyStr u.device_id = false) :
    DevAt (us.map (fun x => if x.id == j then
      { x with device_id := some dev, device_info := some info } else x)) i d := by
  have hji : j ≠ i := by
    intro hj
    subst hj
    have hud := h u hu huj
    rw [hud] at hut
    have hde : d.isEmpty = true := by simpa [truthyStr] using hut
    exact hd ((String.isEmpty_iff d).mp hde)
  intro a' ha' hid
  rcases List.mem_map.mp ha' with ⟨b, hb, hba⟩
  by_cases hbj : (b.id == j) = true
  · rw [if_pos hbj] at hba
    subst hba
    have hbid : b.id = j := by simpa using hbj
    have hid' : b.id = i := hid
    rw [hbid] at hid'
    exact absurd hid' hji
  · rw [if_neg hbj] at hba
    subst hba
    exact h b hb hid

theorem devAt_append (us : List Account) (i : Nat) (d : String) (b : Account)
    (h : DevAt us i d) (hb : b.id ≠ i) : DevAt (us ++ [b]) i d := by
  intro a' ha' hid
  rcases List.mem_append.mp ha' with h' | h'
  · exact h a' h' hid
  · rw [List.mem_singleton.mp h'] at hid ⊢
    exact absurd hid hb

theorem register_users_eq (st : St) (e : String) (m : Bool) (r : Nat → Nat → Nat) :
    (register st e m r).st.users = st.users := by
  simp only [register]
  repeat' split
  all_goals rfl

theorem insertCoffees_users (st : St) (i : Nat) (cs : List String) (n : Nat) :
    (insertCoffees st i cs n).users = st.users := by
  induction cs generalizing st with
  | nil => rfl
  | cons c cs ih => exact ih (saveCoffee st i c n)

theorem devAt_bindingStep (st : St) (u : Account) (dev info : String) (n : Nat)
    (i : Nat) (d : String)
    (hd : d ≠ "") (h : DevAt st.users i d) (hu : u ∈ st.users) :
    DevAt (deviceBindingStep st u dev info n).st.users i d := by
  unfold deviceBindingStep finishValidate
  by_cases ht : truthyStr u.device_id = true
  · rw [if_pos ht]
    by_cases he : (u.device_id == some dev) = true
    · rw [if_pos he]
      exact devAt_map st.users i d u.id (fun x => { x with last_login_at := n })
        (fun x => ⟨rfl, rfl⟩) h
    · rw [if_neg he]
      exact h
  · rw [if_neg ht]
    exact devAt_map ((bindDevice st u.id dev info).users) i d u.id
      (fun x => { x with last_login_at := n }) (fun x => ⟨rfl, rfl⟩)
      (devAt_bind st.users i u.id d dev info hd h u hu rfl (by simpa using ht))

theorem devAt_auth (st : St) (t dev info : String) (i : Nat) (d : String)
    (hd : d ≠ "") (h : DevAt st.users i d) (u : Account) (st1 : St)
    (he : authenticateUser st t dev info = AuthOutcome.ok u st1) :
    DevAt st1.users i d := by
  unfold authenticateUser at he
  by_cases h1 : t.isEmpty = true
  · rw [if_pos h1] at he; cases he
  rw [if_neg h1] at he
  by_cases h2 : dev.isEmpty = true
  · rw [if_pos h2] at he; cases he
  rw [if_neg h2] at he
  cases hu : getUserByToken st t with
  | none => rw [hu] at he; cases he
  | some v =>
    rw [hu] at he
    dsimp only at he
    have hu' : st.users.find? (fun x => x.token == t) = some v := hu
    have hv : v ∈ st.users := List.mem_of_find?_eq_some hu'
    by_cases ht : truthyStr v.device_id = true
    · rw [if_pos ht] at he
      by_cases heq : (v.device_id == some dev) = true
      · rw [if_pos heq] at he
        cases he
        exact h
      · rw [if_neg heq] at he; cases he
    · rw [if_neg ht] at he
      injection he with h3 h4
      subst h3
      subst h4
      exact devAt_bind st.users i v.id d dev info hd h v hv rfl (by simpa using ht)

theorem devAt_validate (st : St) (t dev info : String) (n : Nat) (i : Nat) (d : String)
    (hd : d ≠ "") (h : DevAt st.users i d) (hile : i ≤ maxUserId st) :
    DevAt (validate st t dev info n).st.users i d := by
  unfold validate
  by_cases h1 : t.isEmpty = true
  · rw [if_pos h1]; exact h
  rw [if_neg h1]
  by_cases h2 : dev.isEmpty = true
  · rw [if_pos h2]; exact h
  rw [if_neg h2]
  cases hu : getUserByToken st t with
  | some u =>
    dsimp only
    have hu' : st.users.find? (fun x => x.token == t) = some u := hu
    exact devAt_bindingStep st u dev info n i d hd h (List.mem_of_find?_eq_some hu')
  | none =>
    dsimp only
    cases hr : findRegistrationByToken st t with
    | none => exact h
    | some reg =>
      dsimp only
      have hnew : DevAt (createUser st (deriveUsername reg.email n) t dev info n).users i d := by
        apply devAt_append st.users i d _ h
        intro hcontra
        have : maxUserId st + 1 = i := hcontra
        omega
      have husers : (setRegistrationUsed (createUser st (deriveUsername reg.email n) t dev info n) t).users
          = (createUser st (deriveUsername reg.email n) t dev info n).users := rfl
      cases hu2 : getUserByToken (setRegistrationUsed (createUser st (deriveUsername reg.email n) t dev info n) t) t with
      | none =>
        rw [husers]
        exact hnew
      | some u2 =>
        have hu2' : (setRegistrationUsed (createUser st (deriveUsername reg.email n) t dev info n) t).users.find?
            (fun x => x.token == t) = some u2 := hu2
        apply devAt_bindingStep _ u2 dev info n i d hd
        · rw [husers]; exact hnew
        · exact List.mem_of_find?_eq_some hu2'

theorem devAt_serverValidate (st : St) (t dev info : String) (n : Nat) (i : Nat) (d : String)
    (hd : d ≠ "") (h : DevAt st.users i d) :
    DevAt (serverValidate st t dev info n).st.users i d := by
  unfold serverValidate
  by_cases h1 : t.isEmpty = true
  · rw [if_pos h1]; exact h
  rw [if_neg h1]
  by_cases h2 : dev.isEmpty = true
  · rw [if_pos h2]; exact h
  rw [if_neg h2]
  cases hu : getUserByToken st t with
  | none => exact h
  | some u =>
    dsimp only
    have hu' : st.users.find? (fun x => x.token == t) = some u := hu
    have hum : u ∈ st.users := List.mem_of_find?_eq_some hu'
    by_cases ht : truthyStr u.device_id = true
    · rw [if_pos ht]
      by_cases he : (u.device_id == some dev) = true
      · rw [if_pos he]
        exact devAt_map st.users i d u.id (fun x => { x with last_login_at := n })
          (fun x => ⟨rfl, rfl⟩) h
      · rw [if_neg he]
        exact h
    · rw [if_neg ht]
      exact devAt_map ((bindDevice st u.id dev info).users) i d u.id
        (fun x => { x with last_login_at := n }) (fun x => ⟨rfl, rfl⟩)
        (devAt_bind st.users i u.id d dev info hd h u hum rfl (by simpa using ht))

/-- C1: For every account whose deviceId is non-null, no operation of the
system — validate (both variants), the authenticateUser middleware, the
register endpoint, or any coffee/preference endpoint — ever changes that
deviceId.  In any well-formed store (distinct account ids, no empty-string
device id: both maintained by every operation, since the guards reject
empty device ids), every account row that carries the id of an account
bound to device `d` still carries device `d` after the operation.  The only
write path for deviceId is the bind performed by validation when the
stored deviceId is unset, and a validation supplying a different deviceId
fails without modifying the account. -/
theorem deviceId_immutable (st : St) (op : Op) (a : Account) (d : String)
    (hwf : Wf st) (ha : a ∈ st.users) (hd : a.device_id = some d) :
    ∀ a' ∈ (applyOp st op).users, a'.id = a.id → a'.device_id = some d := by
  have hne : d ≠ "" := fun h0 => hwf.2 a ha (h0 ▸ hd)
  have hdev : DevAt st.users a.id d := devAt_of_wf st a d hwf ha hd
  have hile : a.id ≤ maxUserId st := mem_le_maxUserId st a ha
  cases op with
  | register e m r =>
    show DevAt (register st e m r).st.users a.id d
    rw [register_users_eq st e m r]
    exact hdev
  | validate t dv iv n =>
    exact devAt_validate st t dv iv n a.id d hne hdev hile
  | serverValidate t dv iv n =>
    exact devAt_serverValidate st t dv iv n a.id d hne hdev
  | getGrinder t dv iv =>
    show DevAt (getGrinder st t dv iv).st.users a.id d
    unfold getGrinder
    cases he : authenticateUser st t dv iv with
    | fail s e => dsimp only; exact hdev
    | ok u st1 => dsimp only; exact devAt_auth st t dv iv a.id d hne hdev u st1 he
  | postGrinder t dv iv g =>
    show DevAt (postGrinder st t dv iv g).st.users a.id d
    unfold postGrinder
    cases he : authenticateUser st t dv iv with
    | fail s e => dsimp only; exact hdev
    | ok u st1 =>
      dsimp only
      have h1 : DevAt st1.users a.id d := devAt_auth st t dv iv a.id d hne hdev u st1 he
      cases g with
      | none => exact h1
      | some gr =>
        dsimp only
        by_cases hg : (gr.isEmpty || !(validGrinders.contains gr)) = true
        · rw [if_pos hg]; exact h1
        · rw [if_neg hg]
          exact devAt_map st1.users a.id d u.id
            (fun x => { x with grinder_preference := some gr }) (fun x => ⟨rfl, rfl⟩) h1
  | getWaterHardness t dv iv =>
    show DevAt (getWaterHardness st t dv iv).st.users a.id d
    unfold getWaterHardness
    cases he : authenticateUser st t dv iv with
    | fail s e => dsimp only; exact hdev
    | ok u st1 => dsimp only; exact devAt_auth st t dv iv a.id d hne hdev u st1 he
  | postWaterHardness t dv iv w =>
    show DevAt (postWaterHardness st t dv iv w).st.users a.id d
    unfold postWaterHardness
    cases he : authenticateUser st t dv iv with
    | fail s e => dsimp only; exact hdev
    | ok u st1 =>
      dsimp only
      have h1 : DevAt st1.users a.id d := devAt_auth st t dv iv a.id d hne hdev u st1 he
      cases w with
      | none => exact h1
      | some v =>
        dsimp only
        by_cases hv : v < 0 ∨ 50 < v
        · rw [if_pos hv]; exact h1
        · rw [if_neg hv]
          exact devAt_map st1.users a.id d u.id
            (fun x => { x with water_hardness := some v }) (fun x => ⟨rfl, rfl⟩) h1
  | getCoffees t dv iv n =>
    show DevAt (getCoffees st t dv iv n).st.users a.id d
    unfold getCoffees
    cases he : authenticateUser st t dv iv with
    | fail s e => dsimp only; exact hdev
    | ok u st1 =>
      dsimp only
      have h1 : DevAt st1.users a.id d := devAt_auth st t dv iv a.id d hne hdev u st1 he
      exact devAt_map st1.users a.id d u.id
        (fun x => { x with last_login_at := n }) (fun x => ⟨rfl, rfl⟩) h1
  | postCoffees t dv iv c f n =>
    show DevAt (postCoffees st t dv iv c f n).st.users a.id d
    unfold postCoffees
    cases he : authenticateUser st t dv iv with
    | fail s e => dsimp only; exact hdev
    | ok u st1 =>
      dsimp only
      have h1 : DevAt st1.users a.id d := devAt_auth st t dv iv a.id d hne hdev u st1 he
      by_cases hf : (match f with | none => false | some k => decide (k < (c.getD []).length)) = true
      · rw [if_pos hf]; exact h1
      · rw [if_neg hf]
        by_cases hl : (c.getD []).length > 0
        · rw [if_pos hl]
          show DevAt (insertCoffees (deleteUserCoffees st1 u.id) u.id (c.getD []) n).users a.id d
          rw [insertCoffees_users]
          exact h1
        · rw [if_neg hl]
          exact h1

/-! ## Register endpoint lemmas -/

theorem register_fresh (st : St) (email : String) (mailOk : Bool) (rand : Nat → Nat → Nat)
    (hne : email.isEmpty = false) (hat : hasAtSign email = true)
    (w : WhitelistEntry)
    (hw : st.whitelist.find? (fun x => x.email == normalizeEmail email) = some w)
    (hfresh : st.registrations.find? (fun r => r.email == normalizeEmail email) = none) :
    register st email mailOk rand =
      ⟨{ st with registrations := st.registrations ++
          [⟨normalizeEmail email, pickToken st rand 0 9, false⟩] },
        if mailOk then ⟨200, true, some false, none⟩
        else ⟨500, false, none, some "Server error"⟩⟩ := by
  unfold register
  rw [if_neg (by simp [hne, hat])]
  dsimp only
  rw [hw]
  dsimp only
  rw [hfresh]
  dsimp only
  cases mailOk <;> rfl

theorem register_existing (st : St) (email : String) (mailOk : Bool) (rand : Nat → Nat → Nat)
    (hne : email.isEmpty = false) (hat : hasAtSign email = true)
    (w : WhitelistEntry)
    (hw : st.whitelist.find? (fun x => x.email == normalizeEmail email) = some w)
    (r : Registration)
    (hr : st.registrations.find? (fun x => x.email == normalizeEmail email) = some r) :
    register st email mailOk rand =
      ⟨st, if mailOk then ⟨200, true, some true, none⟩
        else ⟨500, false, none, some "Server error"⟩⟩ := by
  unfold register
  rw [if_neg (by simp [hne, hat])]
  dsimp only
  rw [hw]
  dsimp only
  rw [hr]
  dsimp only
  cases mailOk <;> rfl

/-- C4 (amended): for every email that passes the register endpoint's format
check (non-empty and containing '@') and whose normalization is not on the
whitelist, register returns the 403 `not_whitelisted` error and leaves the
store unchanged: no PendingRegistration row is created and no token is
issued. -/
theorem register_not_whitelisted (st : St) (email : String) (mailOk : Bool)
    (rand : Nat → Nat → Nat)
    (hne : email.isEmpty = false) (hat : hasAtSign email = true)
    (hw : st.whitelist.find? (fun x => x.email == normalizeEmail email) = none) :
    (register st email mailOk rand).resp = ⟨403, false, none, some "not_whitelisted"⟩ ∧
    (register st email mailOk rand).st = st := by
  unfold register
  rw [if_neg (by simp [hne, hat])]
  dsimp only
  rw [hw]
  exact ⟨rfl, rfl⟩

/-- C4 counterexample: the string "foo" is an email input not present on the
(empty) whitelist, yet register answers with the 400 invalid-email error,
not `not_whitelisted`: the format check fires before the whitelist check,
so the claim does not hold for every non-whitelisted email input. -/
theorem register_not_whitelisted_counterexample :
    emptySt.whitelist = [] ∧
    (register emptySt "foo" true flatRand).resp.error ≠ some "not_whitelisted" ∧
    (register emptySt "foo" true flatRand).resp = ⟨400, false, none, some "Ungültige E-Mail"⟩ ∧
    (register emptySt "foo" true flatRand).st = emptySt := by
  refine ⟨rfl, by decide, by decide, rfl⟩

/-- C4 witness: a concrete well-formed, non-whitelisted email is rejected
with `not_whitelisted` and the store is untouched. -/
theorem register_not_whitelisted_witness :
    ("other@example.com".isEmpty = false ∧ hasAtSign "other@example.com" = true ∧
      stWl.whitelist.find? (fun x => x.email == normalizeEmail "other@example.com") = none) ∧
    ((register stWl "other@example.com" true flatRand).resp =
        ⟨403, false, none, some "not_whitelisted"⟩ ∧
      (register stWl "other@example.com" true flatRand).st = stWl) :=
  ⟨⟨by decide, by decide, by decide⟩,
    register_not_whitelisted stWl "other@example.com" true flatRand
      (by decide) (by decide) (by decide)⟩

/-- C5: register is idempotent for a whitelisted email.  Starting from a
store with no pending registration for the (normalized) email, a first
register call succeeds with `resent = false`; the second call with the same
email succeeds with `resent = true`, resends the stored token without
touching the store, and exactly one PendingRegistration row for the email
exists after both calls. -/
theorem register_idempotent (st : St) (email : String) (rand₁ rand₂ : Nat → Nat → Nat)
    (hne : email.isEmpty = false) (hat : hasAtSign email = true)
    (w : WhitelistEntry)
    (hw : st.whitelist.find? (fun x => x.email == normalizeEmail email) = some w)
    (hfresh : st.registrations.find? (fun r => r.email == normalizeEmail email) = none) :
    (register st email true rand₁).resp = ⟨200, true, some false, none⟩ ∧
    (register (register st email true rand₁).st email true rand₂).resp =
      ⟨200, true, some true, none⟩ ∧
    (register (register st email true rand₁).st email true rand₂).st =
      (register st email true rand₁).st ∧
    ((register st email true rand₁).st.registrations.filter
      (fun r => r.email == normalizeEmail email)).length = 1 := by
  have h1 := register_fresh st email true rand₁ hne hat w hw hfresh
  have hrow : ((⟨normalizeEmail email, pickToken st rand₁ 0 9, false⟩ : Registration).email
      == normalizeEmail email) = true := by simp
  have hr2 : ({ st with registrations := st.registrations ++
        [⟨normalizeEmail email, pickToken st rand₁ 0 9, false⟩] } : St).registrations.find?
      (fun x => x.email == normalizeEmail email) =
      some ⟨normalizeEmail email, pickToken st rand₁ 0 9, false⟩ := by
    show (st.registrations ++ [_]).find? _ = _
    rw [find?_append_of_none _ _ _ hfresh]
    exact List.find?_cons_of_pos _ hrow
  have h2 := register_existing
    ({ st with registrations := st.registrations ++
        [⟨normalizeEmail email, pickToken st rand₁ 0 9, false⟩] }) email true rand₂
    hne hat w hw _ hr2
  have hnil : st.registrations.filter (fun r => r.email == normalizeEmail email) = [] := by
    apply List.filter_eq_nil_iff.mpr
    intro r hr
    simpa using List.find?_eq_none.mp hfresh r hr
  rw [h1]
  refine ⟨rfl, ?_, ?_, ?_⟩
  · rw [h2]
    rfl
  · rw [h2]
  · show ((st.registrations ++ [_]).filter _).length = 1
    rw [List.filter_append, hnil]
    simp [hrow]

/-- C5 witness: two concrete register calls for the whitelisted email. -/
theorem register_idempotent_witness :
    ("user@example.com".isEmpty = false ∧ hasAtSign "user@example.com" = true ∧
      stWl.whitelist.find? (fun x => x.email == normalizeEmail "user@example.com") = some wlUser ∧
      stWl.registrations.find? (fun r => r.email == normalizeEmail "user@example.com") = none) ∧
    ((register stWl "user@example.com" true flatRand).resp = ⟨200, true, some false, none⟩ ∧
      (register (register stWl "user@example.com" true flatRand).st
        "user@example.com" true flatRand).resp = ⟨200, true, some true, none⟩ ∧
      (register (register stWl "user@example.com" true flatRand).st
        "user@example.com" true flatRand).st =
        (register stWl "user@example.com" true flatRand).st ∧
      ((register stWl "user@example.com" true flatRand).st.registrations.filter
        (fun r => r.email == normalizeEmail "user@example.com")).length = 1) :=
  ⟨⟨by decide, by decide, by decide, by decide⟩,
    register_idempotent stWl "user@example.com" flatRand flatRand
      (by decide) (by decide) wlUser (by decide) (by decide)⟩

/-- C8: when the outbound mail send fails during a first-time registration
of a whitelisted email, register returns a 500 server error but the freshly
inserted PendingRegistration row remains persisted — there is no
compensating rollback. -/
theorem register_mail_failure_persists (st : St) (email : String) (rand : Nat → Nat → Nat)
    (hne : email.isEmpty = false) (hat : hasAtSign email = true)
    (w : WhitelistEntry)
    (hw : st.whitelist.find? (fun x => x.email == normalizeEmail email) = some w)
    (hfresh : st.registrations.find? (fun r => r.email == normalizeEmail email) = none) :
    (register st email false rand).resp = ⟨500, false, none, some "Server error"⟩ ∧
    (register st email false rand).st.registrations =
      st.registrations ++ [⟨normalizeEmail email, pickToken st rand 0 9, false⟩] := by
  have h1 := register_fresh st email false rand hne hat w hw hfresh
  rw [h1]
  exact ⟨rfl, rfl⟩

/-- C8 witness: a concrete first-time registration whose mail send fails. -/
theorem register_mail_failure_persists_witness :
    ("user@example.com".isEmpty = false ∧ hasAtSign "user@example.com" = true ∧
      stWl.whitelist.find? (fun x => x.email == normalizeEmail "user@example.com") = some wlUser ∧
      stWl.registrations.find? (fun r => r.email == normalizeEmail "user@example.com") = none) ∧
    ((register stWl "user@example.com" false flatRand).resp =
        ⟨500, false, none, some "Server error"⟩ ∧
      (register stWl "user@example.com" false flatRand).st.registrations =
        stWl.registrations ++
          [⟨normalizeEmail "user@example.com", pickToken stWl flatRand 0 9, false⟩]) :=
  ⟨⟨by decide, by decide, by decide, by decide⟩,
    register_mail_failure_persists stWl "user@example.com" flatRand
      (by decide) (by decide) wlUser (by decide) (by decide)⟩

theorem getD_mem_of_lt {α : Type} (l : List α) (n : Nat) (d : α) (h : n < l.length) :
    l.getD n d ∈ l := by
  induction l generalizing n with
  | nil => cases h
  | cons a l ih =>
    cases n with
    | zero => exact List.mem_cons_self a l
    | succ m => exact List.mem_cons_of_mem a (ih m (Nat.lt_of_succ_lt_succ h))

/-- C7: every token produced by `generateToken` is the literal prefix
"BREW-" followed by exactly 6 characters of the 32-symbol alphabet
`ABCDEFGHJKLMNPQRSTUVWXYZ23456789`, which excludes the ambiguous characters
0, O, 1 and I; and since each suffix character is a uniformly random byte
reduced modulo the alphabet size, each alphabet symbol is selected by
exactly 8 of the 256 possible byte values — a uniform distribution. -/
theorem generateToken_pattern (rand : Nat → Nat) :
    (∃ suffix : String, generateToken rand = "BREW-" ++ suffix ∧
      suffix.length = 6 ∧ ∀ c ∈ suffix.toList, c ∈ tokenChars) ∧
    tokenChars.length = 32 ∧
    ('0' ∉ tokenChars ∧ 'O' ∉ tokenChars ∧ '1' ∉ tokenChars ∧ 'I' ∉ tokenChars) ∧
    (∀ c ∈ tokenChars,
      ((List.range 256).filter
        (fun b => tokenChars.getD (b % tokenChars.length) 'A' == c)).length = 8) := by
  refine ⟨⟨String.mk ((List.range 6).map
      (fun i => tokenChars.getD (rand i % tokenChars.length) 'A')), rfl, by simp, ?_⟩,
    by decide, by decide, by decide⟩
  intro c hc
  have hc' : c ∈ (List.range 6).map
      (fun i => tokenChars.getD (rand i % tokenChars.length) 'A') := hc
  rcases List.mem_map.mp hc' with ⟨i, _, hci⟩
  subst hci
  apply getD_mem_of_lt
  exact Nat.mod_lt _ (by decide)

/-! ## Validate endpoint lemmas -/

theorem truthy_some_of_nonempty (s : String) (h : s.isEmpty = false) :
    truthyStr (some s) = true := by
  simp [truthyStr, h]

theorem auth_ok_of_bound (s : St) (t dev info : String) (u : Account)
    (ht : t.isEmpty = false) (hd : dev.isEmpty = false)
    (hu : getUserByToken s t = some u) (hdev : u.device_id = some dev) :
    authenticateUser s t dev info = AuthOutcome.ok u s := by
  unfold authenticateUser
  rw [if_neg (by simp [ht]), if_neg (by simp [hd]), hu]
  dsimp only
  rw [hdev]
  rw [if_pos (truthy_some_of_nonempty dev hd), if_pos (by simp)]

theorem validate_found_match (s : St) (t dev info : String) (n : Nat) (u : Account)
    (ht : t.isEmpty = false) (hd : dev.isEmpty = false)
    (hu : getUserByToken s t = some u) (hdev : u.device_id = some dev) :
    validate s t dev info n =
      ⟨updateLastLogin s u.id n, ⟨200, true, some true, none, some (profileOf u dev)⟩⟩ := by
  unfold validate
  rw [if_neg (by simp [ht]), if_neg (by simp [hd]), hu]
  dsimp only
  unfold deviceBindingStep
  rw [hdev]
  rw [if_pos (truthy_some_of_nonempty dev hd), if_pos (by simp)]
  rfl

theorem validate_found_mismatch (s : St) (t dev info : String) (n : Nat) (u : Account)
    (ht : t.isEmpty = false) (hd : dev.isEmpty = false)
    (hu : getUserByToken s t = some u)
    (htr : truthyStr u.device_id = true) (hne : (u.device_id == some dev) = false) :
    validate s t dev info n =
      ⟨s, ⟨403, false, some false,
        some "This token is already bound to another device", none⟩⟩ := by
  unfold validate
  rw [if_neg (by simp [ht]), if_neg (by simp [hd]), hu]
  dsimp only
  unfold deviceBindingStep
  rw [if_pos htr, if_neg (by simp [hne])]

theorem validate_promotion (st : St) (t dev info : String) (n : Nat)
    (ht : t.isEmpty = false) (hd : dev.isEmpty = false)
    (reg : Registration)
    (hnou : getUserByToken st t = none)
    (hreg : findRegistrationByToken st t = some reg) :
    validate st t dev info n =
      ⟨updateLastLogin
          (setRegistrationUsed (createUser st (deriveUsername reg.email n) t dev info n) t)
          (maxUserId st + 1) n,
        ⟨200, true, some true, none,
          some (profileOf
            ⟨maxUserId st + 1, deriveUsername reg.email n, t, some dev, some info,
              none, none, none, n, n⟩ dev)⟩⟩ := by
  unfold validate
  rw [if_neg (by simp [ht]), if_neg (by simp [hd]), hnou]
  dsimp only
  rw [hreg]
  dsimp only
  have hnou' : st.users.find? (fun x => x.token == t) = none := hnou
  have hfind : getUserByToken
      (setRegistrationUsed (createUser st (deriveUsername reg.email n) t dev info n) t) t =
      some ⟨maxUserId st + 1, deriveUsername reg.email n, t, some dev, some info,
        none, none, none, n, n⟩ := by
    show (st.users ++ [(⟨maxUserId st + 1, deriveUsername reg.email n, t, some dev,
        some info, none, none, none, n, n⟩ : Account)]).find? (fun x => x.token == t) = _
    rw [find?_append_of_none _ _ _ hnou']
    exact List.find?_cons_of_pos _ (by simp)
  rw [hfind]
  dsimp only
  unfold deviceBindingStep
  rw [if_pos (truthy_some_of_nonempty dev hd)]
  rw [if_pos (by simp)]
  rfl

theorem length_filter_map_eq {α : Type} (p : α → Bool) (f : α → α) (l : List α)
    (hf : ∀ x, p (f x) = p x) :
    ((l.map f).filter p).length = (l.filter p).length := by
  induction l with
  | nil => rfl
  | cons a l ih =>
    simp only [List.map_cons, List.filter_cons, hf a]
    cases p a <;> simp [ih]

theorem validate_found_users_length (s : St) (t dev info : String) (n : Nat)
    (u : Account) (hu : getUserByToken s t = some u) :
    (validate s t dev info n).st.users.length = s.users.length := by
  unfold validate
  by_cases h1 : t.isEmpty = true
  · rw [if_pos h1]
  · rw [if_neg h1]
    by_cases h2 : dev.isEmpty = true
    · rw [if_pos h2]
    · rw [if_neg h2]
      rw [hu]
      dsimp only
      unfold deviceBindingStep finishValidate
      by_cases ht : truthyStr u.device_id = true
      · rw [if_pos ht]
        by_cases he : (u.device_id == some dev) = true
        · rw [if_pos he]
          simp [updateLastLogin, updateUserById]
        · rw [if_neg he]
      · rw [if_neg ht]
        simp [updateLastLogin, updateUserById, bindDevice]

theorem getUser_after_promotion (st : St) (uname t dev info : String) (n : Nat)
    (hnou : getUserByToken st t = none) :
    getUserByToken (updateLastLogin (setRegistrationUsed
        (createUser st uname t dev info n) t) (maxUserId st + 1) n) t =
      some ⟨maxUserId st + 1, uname, t, some dev, some info, none, none, none, n, n⟩ := by
  have hnou' : st.users.find? (fun x => x.token == t) = none := hnou
  show ((st.users ++ [(⟨maxUserId st + 1, uname, t, some dev, some info,
      none, none, none, n, n⟩ : Account)]).map
      (fun u => if u.id == maxUserId st + 1 then { u with last_login_at := n } else u)).find?
      (fun x => x.token == t) = _
  rw [find?_map_comm _ _ _ (fun x => by cases hbx : (x.id == maxUserId st + 1) <;> simp [hbx])]
  rw [find?_append_of_none _ _ _ hnou', List.find?_cons_of_pos _ (by simp)]
  simp

/-- C2: for a never-before-seen token (a pending registration exists, no
account yet) and two distinct device ids, the first validate succeeds
(valid, and the returned profile carries the first device id, which is now
bound), and the second validate with the other device id fails with the
403 device-mismatch rejection (`success = false`, `valid = false`, the
`device_mismatch` error of the taxonomy, rendered by the code as the
string "This token is already bound to another device"). -/
theorem validate_binds_then_mismatches (st : St) (t d₁ d₂ info₁ info₂ : String) (n₁ n₂ : Nat)
    (ht : t.isEmpty = false) (hd₁ : d₁.isEmpty = false) (hd₂ : d₂.isEmpty = false)
    (hne : d₁ ≠ d₂) (reg : Registration)
    (hnou : getUserByToken st t = none)
    (hreg : findRegistrationByToken st t = some reg) :
    (validate st t d₁ info₁ n₁).resp.success = true ∧
    (validate st t d₁ info₁ n₁).resp.valid = some true ∧
    (∃ p, (validate st t d₁ info₁ n₁).resp.user = some p ∧ p.deviceId = d₁) ∧
    (validate (validate st t d₁ info₁ n₁).st t d₂ info₂ n₂).resp =
      ⟨403, false, some false,
        some "This token is already bound to another device", none⟩ := by
  have h1 := validate_promotion st t d₁ info₁ n₁ ht hd₁ reg hnou hreg
  have hfind2 := getUser_after_promotion st (deriveUsername reg.email n₁) t d₁ info₁ n₁ hnou
  refine ⟨by rw [h1], by rw [h1], ?_, ?_⟩
  · rw [h1]
    exact ⟨_, rfl, by simp [profileOf, orDefault]⟩
  · have h2 := validate_found_mismatch (validate st t d₁ info₁ n₁).st t d₂ info₂ n₂
      ⟨maxUserId st + 1, deriveUsername reg.email n₁, t, some d₁, some info₁,
        none, none, none, n₁, n₁⟩
      ht hd₂ (by rw [h1]; exact hfind2) (truthy_some_of_nonempty d₁ hd₁)
      (by simp [hne])
    rw [h2]

/-- C3: validating a token that has a pending registration but no account
creates exactly one account bound to that token — its username derived by
`deriveUsername` (local part stripped to word characters, capped at 16,
falling back to "user", with a time-derived suffix) — marks the
registration used, answers success, and every subsequent validate with the
same token finds that account and never creates a second one. -/
theorem validate_promotes_exactly_once (st : St) (t dev info : String) (n : Nat)
    (ht : t.isEmpty = false) (hd : dev.isEmpty = false)
    (reg : Registration)
    (hnou : getUserByToken st t = none)
    (hreg : findRegistrationByToken st t = some reg) :
    ((validate st t dev info n).st.users.filter (fun u => u.token == t)).length = 1 ∧
    (∃ u, getUserByToken (validate st t dev info n).st t = some u ∧
      u.username = deriveUsername reg.email n ∧ u.token = t) ∧
    (∀ r ∈ (validate st t dev info n).st.registrations, r.token = t → r.used = true) ∧
    (validate st t dev info n).resp.success = true ∧
    (∀ dev₂ info₂ n₂,
      (validate (validate st t dev info n).st t dev₂ info₂ n₂).st.users.length =
        (validate st t dev info n).st.users.length) := by
  have h1 := validate_promotion st t dev info n ht hd reg hnou hreg
  have hfind2 := getUser_after_promotion st (deriveUsername reg.email n) t dev info n hnou
  have hnou' : st.users.find? (fun x => x.token == t) = none := hnou
  have hnil : st.users.filter (fun u => u.token == t) = [] := by
    apply List.filter_eq_nil_iff.mpr
    intro u hu
    simpa using List.find?_eq_none.mp hnou' u hu
  refine ⟨?_, ?_, ?_, by rw [h1], ?_⟩
  · rw [h1]
    show (((st.users ++ [(⟨maxUserId st + 1, deriveUsername reg.email n, t, some dev,
        some info, none, none, none, n, n⟩ : Account)]).map
        (fun u => if u.id == maxUserId st + 1 then { u with last_login_at := n } else u)).filter
        (fun u => u.token == t)).length = 1
    rw [length_filter_map_eq _ _ _ (fun x => by cases hbx : (x.id == maxUserId st + 1) <;> simp [hbx])]
    rw [List.filter_append, hnil]
    simp
  · exact ⟨_, by rw [h1]; exact hfind2, rfl, rfl⟩
  · rw [h1]
    intro r hr hrt
    have hr' : r ∈ st.registrations.map
        (fun x => if x.token == t then { x with used := true } else x) := hr
    rcases List.mem_map.mp hr' with ⟨x, hx, hxr⟩
    by_cases hxt : (x.token == t) = true
    · rw [if_pos hxt] at hxr
      rw [← hxr]
    · rw [if_neg hxt] at hxr
      rw [← hxr] at hrt
      exact absurd hrt (by simpa using hxt)
  · intro dev₂ info₂ n₂
    exact validate_found_users_length (validate st t dev info n).st t dev₂ info₂ n₂ _
      (by rw [h1]; exact hfind2)

/-- C1 witness: a bound account in a concrete well-formed store keeps its
device id across a concrete operation (a validate with a different device). -/
theorem deviceId_immutable_witness :
    (Wf stBound ∧ acctBound ∈ stBound.users ∧ acctBound.device_id = some "abc123") ∧
    (∀ a' ∈ (applyOp stBound (Op.validate "BREW-ABC234" "xyz789" "ua" 99)).users,
      a'.id = acctBound.id → a'.device_id = some "abc123") := by
  have hwf : Wf stBound :=
    ⟨List.pairwise_singleton _ _, by
      intro a ha
      rw [List.mem_singleton.mp ha]
      decide⟩
  have hmem : acctBound ∈ stBound.users := List.mem_singleton.mpr rfl
  exact ⟨⟨hwf, hmem, rfl⟩,
    deviceId_immutable stBound (Op.validate "BREW-ABC234" "xyz789" "ua" 99)
      acctBound "abc123" hwf hmem rfl⟩

/-- C2 witness: the concrete pending token is bound to "abc123" on first
validate and rejects "xyz789" on the second. -/
theorem validate_binds_then_mismatches_witness :
    (("BREW-ABC234" : String).isEmpty = false ∧ ("abc123" : String).isEmpty = false ∧
      ("xyz789" : String).isEmpty = false ∧ ("abc123" : String) ≠ "xyz789" ∧
      getUserByToken stPending "BREW-ABC234" = none ∧
      findRegistrationByToken stPending "BREW-ABC234" = some regUser) ∧
    ((validate stPending "BREW-ABC234" "abc123" "ua1" 1111).resp.success = true ∧
      (validate stPending "BREW-ABC234" "abc123" "ua1" 1111).resp.valid = some true ∧
      (∃ p, (validate stPending "BREW-ABC234" "abc123" "ua1" 1111).resp.user = some p ∧
        p.deviceId = "abc123") ∧
      (validate (validate stPending "BREW-ABC234" "abc123" "ua1" 1111).st
          "BREW-ABC234" "xyz789" "ua2" 2222).resp =
        ⟨403, false, some false,
          some "This token is already bound to another device", none⟩) :=
  ⟨⟨by decide, by decide, by decide, by decide, by decide, by decide⟩,
    validate_binds_then_mismatches stPending "BREW-ABC234" "abc123" "xyz789" "ua1" "ua2"
      1111 2222 (by decide) (by decide) (by decide) (by decide) regUser
      (by decide) (by decide)⟩

/-- C3 witness: promoting the concrete pending registration. -/
theorem validate_promotes_exactly_once_witness :
    (("BREW-ABC234" : String).isEmpty = false ∧ ("abc123" : String).isEmpty = false ∧
      getUserByToken stPending "BREW-ABC234" = none ∧
      findRegistrationByToken stPending "BREW-ABC234" = some regUser) ∧
    (((validate stPending "BREW-ABC234" "abc123" "ua1" 1111).st.users.filter
        (fun u => u.token == "BREW-ABC234")).length = 1 ∧
      (∃ u, getUserByToken (validate stPending "BREW-ABC234" "abc123" "ua1" 1111).st
          "BREW-ABC234" = some u ∧
        u.username = deriveUsername regUser.email 1111 ∧ u.token = "BREW-ABC234") ∧
      (∀ r ∈ (validate stPending "BREW-ABC234" "abc123" "ua1" 1111).st.registrations,
        r.token = "BREW-ABC234" → r.used = true) ∧
      (validate stPending "BREW-ABC234" "abc123" "ua1" 1111).resp.success = true ∧
      (∀ dev₂ info₂ n₂,
        (validate (validate stPending "BREW-ABC234" "abc123" "ua1" 1111).st
            "BREW-ABC234" dev₂ info₂ n₂).st.users.length =
          (validate stPending "BREW-ABC234" "abc123" "ua1" 1111).st.users.length)) :=
  ⟨⟨by decide, by decide, by decide, by decide⟩,
    validate_promotes_exactly_once stPending "BREW-ABC234" "abc123" "ua1" 1111
      (by decide) (by decide) regUser (by decide) (by decide)⟩

/-- C10: an account whose stored waterHardness equals 0 — a value the
water-hardness update endpoint accepts as valid (its range check is 0–50,
inclusive) — is reported with `waterHardness = null` by a successful
validate instead of 0, because the response's JS `||` falls back to null
for every falsy stored value, 0 included. -/
theorem waterHardness_zero_reported_null (st : St) (t dev info : String) (a : Account)
    (ht : t.isEmpty = false) (hd : dev.isEmpty = false)
    (hu : getUserByToken st t = some a) (hdev : a.device_id = some dev) :
    (postWaterHardness st t dev info (some 0)).status = 200 ∧
    (postWaterHardness st t dev info (some 0)).success = true ∧
    (∃ a', getUserByToken (postWaterHardness st t dev info (some 0)).st t = some a' ∧
      a'.water_hardness = some 0 ∧
      ∀ info₂ n₂,
        (validate (postWaterHardness st t dev info (some 0)).st t dev info₂ n₂).resp.success
          = true ∧
        (validate (postWaterHardness st t dev info (some 0)).st t dev info₂ n₂).resp.user =
          some (profileOf a' dev) ∧
        (profileOf a' dev).waterHardness = none) := by
  have hauth := auth_ok_of_bound st t dev info a ht hd hu hdev
  have hpost : postWaterHardness st t dev info (some 0) =
      ⟨updateWaterHardness st a.id 0, 200, true, some 0, none⟩ := by
    unfold postWaterHardness
    rw [hauth]
    dsimp only
    rw [if_neg (by norm_num)]
  have hfind : getUserByToken (updateWaterHardness st a.id 0) t =
      some { a with water_hardness := some 0 } := by
    show (st.users.map
        (fun v => if v.id == a.id then { v with water_hardness := some 0 } else v)).find?
        (fun x => x.token == t) = _
    rw [find?_map_comm _ _ _ (fun x => by cases hbx : (x.id == a.id) <;> simp [hbx])]
    have hu' : st.users.find? (fun x => x.token == t) = some a := hu
    rw [hu']
    simp
  rw [hpost]
  refine ⟨rfl, rfl, { a with water_hardness := some 0 }, hfind, rfl, ?_⟩
  intro info₂ n₂
  have hv := validate_found_match (updateWaterHardness st a.id 0) t dev info₂ n₂
    { a with water_hardness := some 0 } ht hd hfind hdev
  exact ⟨by rw [hv], by rw [hv], by simp [profileOf]⟩

/-- C10 witness: storing water hardness 0 on the concrete bound account and
validating afterwards. -/
theorem waterHardness_zero_reported_null_witness :
    (("BREW-ABC234" : String).isEmpty = false ∧ ("abc123" : String).isEmpty = false ∧
      getUserByToken stBound "BREW-ABC234" = some acctBound ∧
      acctBound.device_id = some "abc123") ∧
    ((postWaterHardness stBound "BREW-ABC234" "abc123" "ua" (some 0)).status = 200 ∧
      (postWaterHardness stBound "BREW-ABC234" "abc123" "ua" (some 0)).success = true ∧
      (∃ a', getUserByToken
          (postWaterHardness stBound "BREW-ABC234" "abc123" "ua" (some 0)).st
          "BREW-ABC234" = some a' ∧
        a'.water_hardness = some 0 ∧
        ∀ info₂ n₂,
          (validate (postWaterHardness stBound "BREW-ABC234" "abc123" "ua" (some 0)).st
            "BREW-ABC234" "abc123" info₂ n₂).resp.success = true ∧
          (validate (postWaterHardness stBound "BREW-ABC234" "abc123" "ua" (some 0)).st
            "BREW-ABC234" "abc123" info₂ n₂).resp.user = some (profileOf a' "abc123") ∧
          (profileOf a' "abc123").waterHardness = none)) :=
  ⟨⟨by decide, by decide, by decide, by decide⟩,
    waterHardness_zero_reported_null stBound "BREW-ABC234" "abc123" "ua" acctBound
      (by decide) (by decide) (by decide) (by decide)⟩

/-! ## Coffee record store lemmas -/

theorem auth_ok_coffees (s : St) (t dev info : String) (u : Account) (s1 : St)
    (he : authenticateUser s t dev info = AuthOutcome.ok u s1) :
    s1.coffees = s.coffees := by
  unfold authenticateUser at he
  by_cases h1 : t.isEmpty = true
  · rw [if_pos h1] at he; cases he
  rw [if_neg h1] at he
  by_cases h2 : dev.isEmpty = true
  · rw [if_pos h2] at he; cases he
  rw [if_neg h2] at he
  cases hu : getUserByToken s t with
  | none => rw [hu] at he; cases he
  | some v =>
    rw [hu] at he
    dsimp only at he
    by_cases ht : truthyStr v.device_id = true
    · rw [if_pos ht] at he
      by_cases heq : (v.device_id == some dev) = true
      · rw [if_pos heq] at he
        injection he with h3 h4
        subst h4
        rfl
      · rw [if_neg heq] at he; cases he
    · rw [if_neg ht] at he
      injection he with h3 h4
      subst h4
      rfl

theorem getUserCoffees_delete (s : St) (i : Nat) :
    getUserCoffees (deleteUserCoffees s i) i = [] := by
  apply List.filter_eq_nil_iff.mpr
  intro c hc
  have hc' := List.of_mem_filter hc
  simp at hc' ⊢
  exact hc'

theorem insertCoffees_getUser (s : St) (i : Nat) (cs : List String) (n : Nat) :
    (getUserCoffees (insertCoffees s i cs n) i).map (fun c => c.data) =
      (getUserCoffees s i).map (fun c => c.data) ++ cs := by
  induction cs generalizing s with
  | nil => simp [insertCoffees]
  | cons c cs ih =>
    have h1 := ih (saveCoffee s i c n)
    have h2 : (getUserCoffees (saveCoffee s i c n) i).map (fun x => x.data) =
        (getUserCoffees s i).map (fun x => x.data) ++ [c] := by
      simp [getUserCoffees, saveCoffee, List.filter_append]
    calc (getUserCoffees (insertCoffees s i (c :: cs) n) i).map (fun x => x.data)
        = (getUserCoffees (insertCoffees (saveCoffee s i c n) i cs n) i).map
            (fun x => x.data) := rfl
      _ = (getUserCoffees (saveCoffee s i c n) i).map (fun x => x.data) ++ cs := h1
      _ = ((getUserCoffees s i).map (fun x => x.data) ++ [c]) ++ cs := by rw [h2]
      _ = (getUserCoffees s i).map (fun x => x.data) ++ (c :: cs) := by simp

/-- C6: `POST /api/coffees` is atomic.  A simulated storage failure at any
insert inside the transaction (index `k` within the supplied record list)
rolls everything back: the coffee table is exactly as before the call and
the caller gets a 500.  Without a failure the endpoint returns `saved`
equal to the number of records supplied (0 for an empty or absent input
set) and the account's stored record payloads afterwards are exactly the
supplied set — in particular an empty or absent set clears all prior
records. -/
theorem postCoffees_atomic (st : St) (t dev info : String)
    (coffees : Option (List String)) (n : Nat) (u : Account) (st1 : St)
    (he : authenticateUser st t dev info = AuthOutcome.ok u st1) :
    (∀ k, k < (coffees.getD []).length →
      (postCoffees st t dev info coffees (some k) n).st.coffees = st.coffees ∧
      (postCoffees st t dev info coffees (some k) n).status = 500 ∧
      (postCoffees st t dev info coffees (some k) n).success = false) ∧
    ((postCoffees st t dev info coffees none n).status = 200 ∧
      (postCoffees st t dev info coffees none n).success = true ∧
      (postCoffees st t dev info coffees none n).saved = some (coffees.getD []).length ∧
      (getUserCoffees (postCoffees st t dev info coffees none n).st u.id).map
        (fun c => c.data) = coffees.getD []) := by
  have hco := auth_ok_coffees st t dev info u st1 he
  constructor
  · intro k hk
    unfold postCoffees
    rw [he]
    dsimp only
    rw [if_pos (by simpa using hk)]
    exact ⟨hco, rfl, rfl⟩
  · unfold postCoffees
    rw [he]
    dsimp only
    rw [if_neg (by simp)]
    by_cases hl : (coffees.getD []).length > 0
    · rw [if_pos hl]
      refine ⟨rfl, rfl, rfl, ?_⟩
      rw [insertCoffees_getUser, getUserCoffees_delete]
      simp
    · rw [if_neg hl]
      refine ⟨rfl, rfl, rfl, ?_⟩
      have hcs : coffees.getD [] = [] := List.length_eq_zero.mp (Nat.eq_zero_of_not_pos hl)
      rw [getUserCoffees_delete, hcs]
      rfl

/-- C6 witness: a concrete replace-all with two records, exercised both
with a simulated mid-insert failure and without. -/
theorem postCoffees_atomic_witness :
    (authenticateUser stBound "BREW-ABC234" "abc123" "ua" =
      AuthOutcome.ok acctBound stBound) ∧
    ((∀ k, k < ((some ["rec1", "rec2"] : Option (List String)).getD []).length →
      (postCoffees stBound "BREW-ABC234" "abc123" "ua" (some ["rec1", "rec2"])
        (some k) 7).st.coffees = stBound.coffees ∧
      (postCoffees stBound "BREW-ABC234" "abc123" "ua" (some ["rec1", "rec2"])
        (some k) 7).status = 500 ∧
      (postCoffees stBound "BREW-ABC234" "abc123" "ua" (some ["rec1", "rec2"])
        (some k) 7).success = false) ∧
    ((postCoffees stBound "BREW-ABC234" "abc123" "ua" (some ["rec1", "rec2"])
        none 7).status = 200 ∧
      (postCoffees stBound "BREW-ABC234" "abc123" "ua" (some ["rec1", "rec2"])
        none 7).success = true ∧
      (postCoffees stBound "BREW-ABC234" "abc123" "ua" (some ["rec1", "rec2"])
        none 7).saved = some ((some ["rec1", "rec2"] : Option (List String)).getD []).length ∧
      (getUserCoffees (postCoffees stBound "BREW-ABC234" "abc123" "ua"
          (some ["rec1", "rec2"]) none 7).st acctBound.id).map (fun c => c.data) =
        (some ["rec1", "rec2"] : Option (List String)).getD [])) :=
  ⟨by decide,
    postCoffees_atomic stBound "BREW-ABC234" "abc123" "ua" (some ["rec1", "rec2"]) 7
      acctBound stBound (by decide)⟩

/-! ## Used-flag noninterference -/

theorem forall₂_find?_token (l₁ l₂ : List Registration)
    (h : List.Forall₂ RegSameId l₁ l₂) (t : String) :
    (l₁.find? (fun r => r.token == t) = none ∧ l₂.find? (fun r => r.token == t) = none) ∨
    (∃ r₁ r₂, l₁.find? (fun r => r.token == t) = some r₁ ∧
      l₂.find? (fun r => r.token == t) = some r₂ ∧ RegSameId r₁ r₂) := by
  induction h with
  | nil => exact Or.inl ⟨rfl, rfl⟩
  | cons hr ht ih =>
    rename_i a b l₁' l₂'
    by_cases hat : (a.token == t) = true
    · have hbt : (b.token == t) = true := by rw [← hr.2]; exact hat
      exact Or.inr ⟨a, b, List.find?_cons_of_pos _ hat, List.find?_cons_of_pos _ hbt, hr⟩
    · have hbt : ¬(b.token == t) = true := by rw [← hr.2]; exact hat
      rw [List.find?_cons_of_neg _ (by simpa using hat),
        List.find?_cons_of_neg _ (by simpa using hbt)]
      exact ih

theorem forall₂_setUsed (l₁ l₂ : List Registration)
    (h : List.Forall₂ RegSameId l₁ l₂) (t : String) :
    List.Forall₂ RegSameId
      (l₁.map (fun r => if r.token == t then { r with used := true } else r))
      (l₂.map (fun r => if r.token == t then { r with used := true } else r)) := by
  induction h with
  | nil => exact List.Forall₂.nil
  | cons hr ht ih =>
    rename_i a b l₁' l₂'
    simp only [List.map_cons]
    refine List.Forall₂.cons ?_ ih
    by_cases hat : (a.token == t) = true
    · have hbt : (b.token == t) = true := by rw [← hr.2]; exact hat
      rw [if_pos hat, if_pos hbt]
      exact ⟨hr.1, hr.2⟩
    · have hbt : ¬(b.token == t) = true := by rw [← hr.2]; exact hat
      rw [if_neg hat, if_neg hbt]
      exact hr

theorem bindingStep_eqModUsed (s₁ s₂ : St) (u : Account) (dev info : String) (n : Nat)
    (hwl : s₁.whitelist = s₂.whitelist) (hus : s₁.users = s₂.users)
    (hcf : s₁.coffees = s₂.coffees)
    (hreg : List.Forall₂ RegSameId s₁.registrations s₂.registrations) :
    (deviceBindingStep s₁ u dev info n).resp = (deviceBindingStep s₂ u dev info n).resp ∧
    EqModUsed (deviceBindingStep s₁ u dev info n).st (deviceBindingStep s₂ u dev info n).st := by
  unfold deviceBindingStep finishValidate
  by_cases ht : truthyStr u.device_id = true
  · rw [if_pos ht, if_pos ht]
    by_cases he : (u.device_id == some dev) = true
    · rw [if_pos he, if_pos he]
      refine ⟨rfl, hwl, ?_, hcf, hreg⟩
      show s₁.users.map _ = s₂.users.map _
      rw [hus]
    · rw [if_neg he, if_neg he]
      exact ⟨rfl, hwl, hus, hcf, hreg⟩
  · rw [if_neg ht, if_neg ht]
    refine ⟨rfl, hwl, ?_, hcf, hreg⟩
    show (s₁.users.map _).map _ = (s₂.users.map _).map _
    rw [hus]

/-- C9: the outcome of validate never depends on the `used` flags of
pending registrations.  For any two stores that differ only in the `used`
field of registration rows, validate returns the same response and
performs the same account creation and device binding, so the resulting
stores again differ only in `used` flags: `used` is written (set at
promotion) but never read by the validation path — a registration already
marked used but without an account would still be promoted. -/
theorem validate_ignores_used (s₁ s₂ : St) (t dev info : String) (n : Nat)
    (h : EqModUsed s₁ s₂) :
    (validate s₁ t dev info n).resp = (validate s₂ t dev info n).resp ∧
    EqModUsed (validate s₁ t dev info n).st (validate s₂ t dev info n).st := by
  obtain ⟨hwl, hus, hcf, hreg⟩ := h
  have hgu : getUserByToken s₂ t = getUserByToken s₁ t := by
    unfold getUserByToken
    rw [hus]
  unfold validate
  by_cases h1 : t.isEmpty = true
  · rw [if_pos h1, if_pos h1]
    exact ⟨rfl, hwl, hus, hcf, hreg⟩
  rw [if_neg h1, if_neg h1]
  by_cases h2 : dev.isEmpty = true
  · rw [if_pos h2, if_pos h2]
    exact ⟨rfl, hwl, hus, hcf, hreg⟩
  rw [if_neg h2, if_neg h2, hgu]
  cases hu : getUserByToken s₁ t with
  | some u =>
    dsimp only
    exact bindingStep_eqModUsed s₁ s₂ u dev info n hwl hus hcf hreg
  | none =>
    dsimp only
    rcases forall₂_find?_token s₁.registrations s₂.registrations hreg t with
      ⟨hn₁, hn₂⟩ | ⟨r₁, r₂, hs₁, hs₂, hrr⟩
    · have hfr₁ : findRegistrationByToken s₁ t = none := hn₁
      have hfr₂ : findRegistrationByToken s₂ t = none := hn₂
      rw [hfr₁, hfr₂]
      exact ⟨rfl, hwl, hus, hcf, hreg⟩
    · have hfr₁ : findRegistrationByToken s₁ t = some r₁ := hs₁
      have hfr₂ : findRegistrationByToken s₂ t = some r₂ := hs₂
      rw [hfr₁, hfr₂]
      dsimp only
      have hmax : maxUserId s₂ = maxUserId s₁ := by
        unfold maxUserId
        rw [hus]
      have hname : deriveUsername r₂.email n = deriveUsername r₁.email n := by rw [hrr.1]
      have husers2 :
          (setRegistrationUsed (createUser s₂ (deriveUsername r₂.email n) t dev info n) t).users =
          (setRegistrationUsed (createUser s₁ (deriveUsername r₁.email n) t dev info n) t).users := by
        show s₂.users ++ [(⟨maxUserId s₂ + 1, deriveUsername r₂.email n, t, some dev,
            some info, none, none, none, n, n⟩ : Account)] =
          s₁.users ++ [(⟨maxUserId s₁ + 1, deriveUsername r₁.email n, t, some dev,
            some info, none, none, none, n, n⟩ : Account)]
        rw [hus, hmax, hname]
      have hgu2 :
          getUserByToken (setRegistrationUsed
            (createUser s₂ (deriveUsername r₂.email n) t dev info n) t) t =
          getUserByToken (setRegistrationUsed
            (createUser s₁ (deriveUsername r₁.email n) t dev info n) t) t := by
        unfold getUserByToken
        rw [husers2]
      rw [hgu2]
      have hregs2 : List.Forall₂ RegSameId
          (setRegistrationUsed (createUser s₁ (deriveUsername r₁.email n) t dev info n) t).registrations
          (setRegistrationUsed (createUser s₂ (deriveUsername r₂.email n) t dev info n) t).registrations :=
        forall₂_setUsed s₁.registrations s₂.registrations hreg t
      cases hu2 : getUserByToken (setRegistrationUsed
          (createUser s₁ (deriveUsername r₁.email n) t dev info n) t) t with
      | none =>
        dsimp only
        exact ⟨rfl, hwl, husers2.symm, hcf, hregs2⟩
      | some u2 =>
        dsimp only
        exact bindingStep_eqModUsed _ _ u2 dev info n hwl husers2.symm hcf hregs2

/-- C9 witness: the concrete pending store and its copy with `used = true`
validate identically. -/
theorem validate_ignores_used_witness :
    EqModUsed stPending ⟨[wlUser], [⟨"user@example.com", "BREW-ABC234", true⟩], [], []⟩ ∧
    ((validate stPending "BREW-ABC234" "abc123" "ua" 5).resp =
      (validate (⟨[wlUser], [⟨"user@example.com", "BREW-ABC234", true⟩], [], []⟩ : St)
        "BREW-ABC234" "abc123" "ua" 5).resp ∧
      EqModUsed (validate stPending "BREW-ABC234" "abc123" "ua" 5).st
        (validate (⟨[wlUser], [⟨"user@example.com", "BREW-ABC234", true⟩], [], []⟩ : St)
          "BREW-ABC234" "abc123" "ua" 5).st) := by
  have h : EqModUsed stPending
      ⟨[wlUser], [⟨"user@example.com", "BREW-ABC234", true⟩], [], []⟩ :=
    ⟨rfl, rfl, rfl, List.Forall₂.cons ⟨rfl, rfl⟩ List.Forall₂.nil⟩
  exact ⟨h, validate_ignores_used stPending _ "BREW-ABC234" "abc123" "ua" 5 h⟩
